import Mathlib

set_option autoImplicit false

/-!
Shallow embedding of the message-pairing and deduplication engine of the
cityhall-complaints-bot repository.

Embedded source:
* `src/utils/messageStore.js` — the `MessageStore` class (recent-text map,
  recent-image map, processed-id set with bounded size, lazy expiry, sweep).
* `src/unnamed/part_001` — the `POST /webhook` handler section that performs
  deduplication, the pairing decision, and hands the resolved text to the
  external classifier and spreadsheet collaborators.

Modelling conventions: a JS `Map` is an insertion-ordered association list
(`Map.set` replaces in place for an existing key, appends for a new key);
a JS `Set` is an insertion-ordered duplicate-free list; JS numeric
timestamps are `Int` (a falsy numeric timestamp is modelled as `0`);
JS strings are `String` (the only falsy string is the empty string).
-/

/-- Value stored in `recentMessages`: the object with fields
`message` and `timestamp` built in `storeMessage` (messageStore.js:77-80). -/
structure MessageEntry where
  message : String
  timestamp : Int
deriving DecidableEq

/-- Value stored in `recentImages`: the object with fields `url`, `caption`
and `timestamp` built in `storeImage` (messageStore.js:119-123). -/
structure ImageEntry where
  url : String
  caption : String
  timestamp : Int
deriving DecidableEq

/-- The mutable state of the `MessageStore` class (messageStore.js:7-14):
`recentMessages` and `recentImages` are JS `Map`s keyed by sender,
`processedMessages` is a JS `Set` of message ids in insertion order
(head = oldest). The `cleanupInterval` timer handle is not part of the
data model. -/
structure MessageStore where
  recentMessages : List (String × MessageEntry)
  recentImages : List (String × ImageEntry)
  processedMessages : List String
deriving DecidableEq

/-- The state built by the constructor: all three collections empty. -/
def initialStore : MessageStore := ⟨[], [], []⟩

/-- `this.maxMessageAge = 60000` (messageStore.js:11). -/
def maxMessageAge : Int := 60000

/-- `this.maxProcessedSize = 10000` (messageStore.js:12). -/
def maxProcessedSize : Nat := 10000

/-- JS `Map.get`: the value for key `k`, or `none`. -/
def mapGet {α : Type} (k : String) : List (String × α) → Option α
  | [] => none
  | p :: rest => if p.1 = k then some p.2 else mapGet k rest

/-- JS `Map.has`. -/
def mapHas {α : Type} (k : String) : List (String × α) → Bool
  | [] => false
  | p :: rest => decide (p.1 = k) || mapHas k rest

/-- Replace the entry for an existing key `k`, keeping its position
(the behaviour of JS `Map.set` on a key already present). -/
def mapReplace {α : Type} (k : String) (v : α) : List (String × α) → List (String × α)
  | [] => []
  | p :: rest => if p.1 = k then (k, v) :: rest else p :: mapReplace k v rest

/-- JS `Map.set`: replace in place if the key is present, else append. -/
def mapSet {α : Type} (k : String) (v : α) (l : List (String × α)) : List (String × α) :=
  if mapHas k l then mapReplace k v l else l ++ [(k, v)]

/-- JS `Map.delete`: remove the entry for key `k` (a JS `Map` holds at most
one entry per key, so removing the first match suffices). -/
def mapDelete {α : Type} (k : String) : List (String × α) → List (String × α)
  | [] => []
  | p :: rest => if p.1 = k then rest else p :: mapDelete k rest

/-- JS `timestamp || Date.now()` on a numeric timestamp: the falsy value `0`
falls back to the wall clock `now`. -/
def jsOrTimestamp (timestamp now : Int) : Int := if timestamp = 0 then now else timestamp

/-- JS `s.substring(0, n)`: the first `n` characters of `s`. -/
def jsSubstring (s : String) (n : Nat) : String := ⟨s.data.take n⟩

/-- `isProcessed(messageId)` (messageStore.js:44-46): JS `Set.has`. -/
def isProcessed (m : MessageStore) (messageId : String) : Bool :=
  m.processedMessages.contains messageId

/-- The effect of `markProcessed` on the processed-id set
(messageStore.js:52-63): `Set.add` is a no-op for a member and appends a
non-member; then, if the size exceeds `maxProcessedSize`, the first
`size - maxProcessedSize` elements in insertion order are deleted. -/
def markProcessedIds (messageId : String) (s : List String) : List String :=
  let s1 := if messageId ∈ s then s else s ++ [messageId]
  if maxProcessedSize < s1.length then s1.drop (s1.length - maxProcessedSize) else s1

/-- `markProcessed(messageId)` (messageStore.js:52-63). -/
def markProcessed (m : MessageStore) (messageId : String) : MessageStore :=
  { m with processedMessages := markProcessedIds messageId m.processedMessages }

/-- `storeMessage(sender, message, timestamp)` (messageStore.js:71-81):
falsy `sender` or `message` is a silent no-op; otherwise the sender's entry
is set to the first 1000 characters of the message with the given timestamp
(falling back to `Date.now()`, modelled by the extra `now` argument). -/
def storeMessage (m : MessageStore) (sender message : String) (timestamp now : Int) :
    MessageStore :=
  if sender = "" ∨ message = "" then m
  else
    { m with recentMessages :=
        (mapSet sender ⟨jsSubstring message 1000, jsOrTimestamp timestamp now⟩
          m.recentMessages) }

/-- The object returned by `getRecentMessage` (messageStore.js:98):
fields `text` and `timestamp`. -/
structure RecentText where
  text : String
  timestamp : Int
deriving DecidableEq

/-- `getRecentMessage(sender, currentTimestamp)` (messageStore.js:89-104).
Returns the lookup result together with the store after the call, because
the miss-on-stale path deletes the entry (lazy expiry). The window test
`Math.abs(currentTimestamp - recent.timestamp) <= this.maxMessageAge` is
modelled with `Int.natAbs`, which is the absolute value as a `Nat`. -/
def getRecentMessage (m : MessageStore) (sender : String) (currentTimestamp : Int) :
    Option RecentText × MessageStore :=
  match mapGet sender m.recentMessages with
  | none => (none, m)
  | some recent =>
    if (currentTimestamp - recent.timestamp).natAbs ≤ maxMessageAge.toNat then
      (some ⟨recent.message, recent.timestamp⟩, m)
    else
      (none, { m with recentMessages := mapDelete sender m.recentMessages })

/-- `storeImage(sender, imageUrl, caption, timestamp)` (messageStore.js:113-124):
falsy `sender` or `imageUrl` is a silent no-op; `caption || ''` on a string
caption is the caption itself (empty stays empty). -/
def storeImage (m : MessageStore) (sender imageUrl caption : String) (timestamp now : Int) :
    MessageStore :=
  if sender = "" ∨ imageUrl = "" then m
  else
    { m with recentImages :=
        mapSet sender ⟨imageUrl, caption, jsOrTimestamp timestamp now⟩ m.recentImages }

/-- The object returned by `getRecentImage` (messageStore.js:141). -/
structure RecentImage where
  url : String
  caption : String
  timestamp : Int
deriving DecidableEq

/-- `getRecentImage(sender, currentTimestamp)` (messageStore.js:132-147). -/
def getRecentImage (m : MessageStore) (sender : String) (currentTimestamp : Int) :
    Option RecentImage × MessageStore :=
  match mapGet sender m.recentImages with
  | none => (none, m)
  | some recent =>
    if (currentTimestamp - recent.timestamp).natAbs ≤ maxMessageAge.toNat then
      (some ⟨recent.url, recent.caption, recent.timestamp⟩, m)
    else
      (none, { m with recentImages := mapDelete sender m.recentImages })

/-- `cleanup()` (messageStore.js:152-186): collect the senders whose entry
satisfies `now - data.timestamp > this.maxMessageAge` (note: a signed
comparison, unlike the absolute-value test of the read path), then delete
each collected sender, in both maps. -/
def cleanup (m : MessageStore) (now : Int) : MessageStore :=
  let expiredMessageSenders :=
    (m.recentMessages.filter fun p => decide (maxMessageAge < now - p.2.timestamp)).map Prod.fst
  let expiredImageSenders :=
    (m.recentImages.filter fun p => decide (maxMessageAge < now - p.2.timestamp)).map Prod.fst
  { m with
    recentMessages := expiredMessageSenders.foldl (fun l k => mapDelete k l) m.recentMessages,
    recentImages := expiredImageSenders.foldl (fun l k => mapDelete k l) m.recentImages }

/-- `clear()` (messageStore.js:203-207). -/
def clearStore (_ : MessageStore) : MessageStore := initialStore

example : mapGet "a" (mapSet "a" (3 : Nat) []) = some 3 := by decide
example : (getRecentMessage (storeMessage initialStore "s" "hi" 1000 0) "s" 61000).1
    = some ⟨"hi", 1000⟩ := by decide
example : (getRecentMessage (storeMessage initialStore "s" "hi" 1000 0) "s" 61001).1
    = none := by decide

/-!
Embedding of the `POST /webhook` handler of `src/unnamed/part_001`
(lines 100-182): duplicate check, pairing decision, and the hand-off to the
external classifier (`analyzeComplaint`) and spreadsheet (`appendToSheet`)
collaborators. Row construction, contact extraction and the HTTP layer are
outside every claim and are represented only by the fact and payload of the
two external calls.
-/

/-- Tag naming the branch of the pairing decision that produced the
resolved text, using the vocabulary of the PairingPolicy component
(the source carries no explicit tag in this handler; the sibling variant
`processMessageWithContext` in `src/googleSheets.js` tags the same branches
with the strings high, image_with_caption, paired_image_text, image_only). -/
inductive Confidence
  | directText
  | captionOnImage
  | pairedTextToImage
  | imageOnlyFallback
deriving DecidableEq

/-- The value of the JS variable `messageText` after the pairing decision.
In the paired branch (part_001 line 137) the handler assigns the whole
object returned by `getRecentMessage`, not its `text` field, so the
variable holds either a string or a text-with-timestamp object. -/
inductive ResolvedText
  | str (s : String)
  | pairedObj (r : RecentText)
deriving DecidableEq

/-- External side-effecting calls made by the handler, in order. -/
inductive ExtCall
  | classify (message : ResolvedText) (imageUrl : Option String)
  | appendRow
deriving DecidableEq

/-- A normalized inbound event as produced by `parseWebhookPayload`
(part_001 line 100): `messageType` is the provider message type, `text` the
text payload, `caption` and `url` the image payload fields (each already
defaulted to the empty string by the `|| ''` in the source). -/
structure WebhookEvent where
  messageType : String
  sender : String
  timestampMs : Int
  text : String
  caption : String
  url : String
  messageId : String
deriving DecidableEq

/-- Observable outcome of one handler run: the store afterwards, the HTTP
response body, the resolved text/image/branch, whether `getRecentMessage`
was invoked, and the external calls that were issued. -/
structure HandlerResult where
  store : MessageStore
  response : String
  messageText : ResolvedText
  imageUrl : Option String
  confidence : Option Confidence
  calledGetRecent : Bool
  calls : List ExtCall
deriving DecidableEq

/-- The fallback sentinel of part_001 line 140, a fixed non-empty Hebrew
string meaning: image without text, cannot be linked to a complaint. -/
def FALLBACK_SENTINEL : String := "(תמונה ללא טקסט, לא ניתן לקשר לפנייה)"

/-- The `POST /webhook` handler of part_001, lines 100-176. `sanitizeText`
(from the repository's `utils/validation.js`, not present under `src/`) is
an opaque parameter; `wallClock` stands for `Date.now()`. The duplicate
check (lines 103-106) returns before `markProcessed` and before any other
work; the text branch stores the sanitized text; the image branch uses the
caption when truthy, otherwise consults `getRecentMessage` and falls back
to the sentinel; no branch calls `storeImage`. -/
def handleWebhookPost (sanitizeText : String → String) (wallClock : Int)
    (ev : WebhookEvent) (m : MessageStore) : HandlerResult :=
  if isProcessed m ev.messageId then
    { store := m, response := "Duplicate", messageText := ResolvedText.str "",
      imageUrl := none, confidence := none, calledGetRecent := false, calls := [] }
  else
    let m1 := markProcessed m ev.messageId
    if ev.messageType = "text" then
      let messageText := sanitizeText ev.text
      let m2 := storeMessage m1 ev.sender messageText ev.timestampMs wallClock
      { store := m2, response := "success", messageText := ResolvedText.str messageText,
        imageUrl := none, confidence := some Confidence.directText, calledGetRecent := false,
        calls := [ExtCall.classify (ResolvedText.str messageText) none, ExtCall.appendRow] }
    else if ev.messageType = "image" then
      if ev.caption ≠ "" then
        { store := m1, response := "success", messageText := ResolvedText.str ev.caption,
          imageUrl := some ev.url, confidence := some Confidence.captionOnImage,
          calledGetRecent := false,
          calls := [ExtCall.classify (ResolvedText.str ev.caption) (some ev.url),
            ExtCall.appendRow] }
      else
        match getRecentMessage m1 ev.sender ev.timestampMs with
        | (some recentMessage, m2) =>
          { store := m2, response := "success",
            messageText := ResolvedText.pairedObj recentMessage,
            imageUrl := some ev.url, confidence := some Confidence.pairedTextToImage,
            calledGetRecent := true,
            calls := [ExtCall.classify (ResolvedText.pairedObj recentMessage) (some ev.url),
              ExtCall.appendRow] }
        | (none, m2) =>
          { store := m2, response := "success",
            messageText := ResolvedText.str FALLBACK_SENTINEL,
            imageUrl := some ev.url, confidence := some Confidence.imageOnlyFallback,
            calledGetRecent := true,
            calls := [ExtCall.classify (ResolvedText.str FALLBACK_SENTINEL) (some ev.url),
              ExtCall.appendRow] }
    else
      { store := m1, response := "success", messageText := ResolvedText.str "",
        imageUrl := none, confidence := none, calledGetRecent := false,
        calls := [ExtCall.classify (ResolvedText.str "") none, ExtCall.appendRow] }

/-- One call through the public interface of the store singleton. -/
inductive StoreOp
  | opStoreMessage (sender message : String) (timestamp now : Int)
  | opStoreImage (sender imageUrl caption : String) (timestamp now : Int)
  | opGetRecentMessage (sender : String) (currentTimestamp : Int)
  | opGetRecentImage (sender : String) (currentTimestamp : Int)
  | opMarkProcessed (messageId : String)
  | opCleanup (now : Int)
  | opClear

/-- State transition of one store call (reads are transitions too, because
of lazy expiry). -/
def applyOp (m : MessageStore) : StoreOp → MessageStore
  | StoreOp.opStoreMessage sender message timestamp now =>
      storeMessage m sender message timestamp now
  | StoreOp.opStoreImage sender imageUrl caption timestamp now =>
      storeImage m sender imageUrl caption timestamp now
  | StoreOp.opGetRecentMessage sender currentTimestamp =>
      (getRecentMessage m sender currentTimestamp).2
  | StoreOp.opGetRecentImage sender currentTimestamp =>
      (getRecentImage m sender currentTimestamp).2
  | StoreOp.opMarkProcessed messageId => markProcessed m messageId
  | StoreOp.opCleanup now => cleanup m now
  | StoreOp.opClear => clearStore m

/-- The store after a sequence of calls, starting from the freshly
constructed singleton. -/
def runOps (ops : List StoreOp) : MessageStore := ops.foldl applyOp initialStore

/-- Keys of an association list are pairwise distinct (always true of a
JS `Map`, and preserved by every embedded operation). -/
def keysNodup {α : Type} (l : List (String × α)) : Prop := (l.map Prod.fst).Nodup

instance keysNodupDecidable {α : Type} (l : List (String × α)) : Decidable (keysNodup l) :=
  List.nodupDecidable (l.map Prod.fst)

/-! Lemmas about the JS `Map` model. -/

theorem mapHas_eq_true_iff {α : Type} (k : String) (l : List (String × α)) :
    mapHas k l = true ↔ k ∈ l.map Prod.fst := by
  induction l with
  | nil => simp [mapHas]
  | cons p rest ih =>
    by_cases h : p.1 = k
    · subst h
      simp [mapHas]
    · have h2 : ¬k = p.1 := fun e => h e.symm
      simp [mapHas, h, h2, ih]

theorem mapGet_eq_none_of_not_mem_keys {α : Type} (k : String) (l : List (String × α))
    (h : k ∉ l.map Prod.fst) : mapGet k l = none := by
  induction l with
  | nil => rfl
  | cons p rest ih =>
    simp only [List.map_cons, List.mem_cons, not_or] at h
    have h1 : ¬p.1 = k := fun e => h.1 e.symm
    simp [mapGet, h1, ih h.2]

theorem mapGet_mem {α : Type} (k : String) (v : α) (l : List (String × α))
    (h : mapGet k l = some v) : (k, v) ∈ l := by
  induction l with
  | nil => simp [mapGet] at h
  | cons p rest ih =>
    by_cases hpk : p.1 = k
    · simp only [mapGet, hpk, if_pos] at h
      subst hpk
      cases h
      exact List.mem_cons_self _ _
    · simp only [mapGet, hpk, if_neg, not_false_iff] at h
      exact List.mem_cons_of_mem _ (ih h)

theorem mapGet_mapReplace_self {α : Type} (k : String) (v : α) (l : List (String × α))
    (h : mapHas k l = true) : mapGet k (mapReplace k v l) = some v := by
  induction l with
  | nil => simp [mapHas] at h
  | cons p rest ih =>
    by_cases hpk : p.1 = k
    · simp [mapReplace, hpk, mapGet]
    · simp only [mapHas, hpk, decide_eq_true_eq, decide_False, Bool.false_or] at h
      simp [mapReplace, hpk, mapGet, ih h]

theorem mapGet_append_single_self {α : Type} (k : String) (v : α) (l : List (String × α))
    (h : mapHas k l = false) : mapGet k (l ++ [(k, v)]) = some v := by
  induction l with
  | nil => simp [mapGet]
  | cons p rest ih =>
    simp only [mapHas, Bool.or_eq_false_iff, decide_eq_false_iff_not] at h
    simp [mapGet, h.1, ih h.2]

theorem mapGet_mapSet_self {α : Type} (k : String) (v : α) (l : List (String × α)) :
    mapGet k (mapSet k v l) = some v := by
  unfold mapSet
  by_cases h : mapHas k l = true
  · simp [h, mapGet_mapReplace_self k v l h]
  · simp only [Bool.not_eq_true] at h
    simp [h, mapGet_append_single_self k v l h]

theorem mapGet_mapReplace_ne {α : Type} (k k2 : String) (v : α) (l : List (String × α))
    (h : k2 ≠ k) : mapGet k2 (mapReplace k v l) = mapGet k2 l := by
  induction l with
  | nil => rfl
  | cons p rest ih =>
    by_cases hpk : p.1 = k
    · have h1 : ¬k = k2 := fun e => h e.symm
      have h2 : ¬p.1 = k2 := fun e => h (e.symm.trans hpk)
      simp [mapReplace, hpk, mapGet, h1, h2]
    · simp [mapReplace, hpk, mapGet, ih]

theorem mapGet_mapSet_ne {α : Type} (k k2 : String) (v : α) (l : List (String × α))
    (h : k2 ≠ k) : mapGet k2 (mapSet k v l) = mapGet k2 l := by
  have happ : ∀ l2 : List (String × α), mapGet k2 (l2 ++ [(k, v)]) = mapGet k2 l2 := by
    intro l2
    induction l2 with
    | nil =>
      have h1 : ¬k = k2 := fun e => h e.symm
      simp [mapGet, h1]
    | cons p rest ih => by_cases hpk : p.1 = k2 <;> simp [mapGet, hpk, ih]
  unfold mapSet
  by_cases hh : mapHas k l
  · simp [hh, mapGet_mapReplace_ne k k2 v l h]
  · simp only [Bool.not_eq_true] at hh
    simp [hh, happ l]

theorem mapGet_mapDelete_ne {α : Type} (k k2 : String) (l : List (String × α))
    (h : k2 ≠ k) : mapGet k2 (mapDelete k l) = mapGet k2 l := by
  induction l with
  | nil => rfl
  | cons p rest ih =>
    by_cases hpk : p.1 = k
    · have h1 : ¬k = k2 := fun e => h e.symm
      have h2 : ¬p.1 = k2 := fun e => h (e.symm.trans hpk)
      simp [mapDelete, hpk, mapGet, h1, h2]
    · simp [mapDelete, hpk, mapGet, ih]

theorem mapGet_mapDelete_self {α : Type} (k : String) (l : List (String × α))
    (h : keysNodup l) : mapGet k (mapDelete k l) = none := by
  induction l with
  | nil => rfl
  | cons p rest ih =>
    simp only [keysNodup, List.map_cons, List.nodup_cons] at h
    by_cases hpk : p.1 = k
    · subst hpk
      simp only [mapDelete, if_pos rfl]
      exact mapGet_eq_none_of_not_mem_keys _ _ h.1
    · simp [mapDelete, hpk, mapGet, ih h.2]

theorem mem_mapReplace {α : Type} (k : String) (v : α) (l : List (String × α))
    (p : String × α) (h : p ∈ mapReplace k v l) : p = (k, v) ∨ p ∈ l := by
  induction l with
  | nil => simp [mapReplace] at h
  | cons q rest ih =>
    by_cases hqk : q.1 = k
    · simp only [mapReplace, hqk, if_pos, List.mem_cons] at h
      rcases h with h | h
      · exact Or.inl h
      · exact Or.inr (List.mem_cons_of_mem _ h)
    · simp only [mapReplace, hqk, if_neg, not_false_iff, List.mem_cons] at h
      rcases h with h | h
      · exact Or.inr (h ▸ List.mem_cons_self _ _)
      · rcases ih h with h2 | h2
        · exact Or.inl h2
        · exact Or.inr (List.mem_cons_of_mem _ h2)

theorem mem_mapSet {α : Type} (k : String) (v : α) (l : List (String × α))
    (p : String × α) (h : p ∈ mapSet k v l) : p = (k, v) ∨ p ∈ l := by
  unfold mapSet at h
  by_cases hh : mapHas k l
  · simp only [hh, if_pos] at h
    exact mem_mapReplace k v l p h
  · simp only [Bool.not_eq_true] at hh
    simp only [hh, Bool.false_eq_true, if_false, List.mem_append, List.mem_singleton] at h
    exact h.symm

theorem mem_mapDelete {α : Type} (k : String) (l : List (String × α))
    (p : String × α) (h : p ∈ mapDelete k l) : p ∈ l := by
  induction l with
  | nil => simp [mapDelete] at h
  | cons q rest ih =>
    by_cases hqk : q.1 = k
    · simp only [mapDelete, hqk, if_pos] at h
      exact List.mem_cons_of_mem _ h
    · simp only [mapDelete, hqk, if_neg, not_false_iff, List.mem_cons] at h
      rcases h with h | h
      · exact h ▸ List.mem_cons_self _ _
      · exact List.mem_cons_of_mem _ (ih h)

theorem mem_foldl_mapDelete {α : Type} (keys : List String) (l : List (String × α))
    (p : String × α) (h : p ∈ keys.foldl (fun acc k => mapDelete k acc) l) : p ∈ l := by
  induction keys generalizing l with
  | nil => exact h
  | cons k rest ih => exact mem_mapDelete k l p (ih (mapDelete k l) h)

/-! Lemmas about the processed-id set. -/

theorem markProcessedIds_length_le (messageId : String) (s : List String) :
    (markProcessedIds messageId s).length ≤ maxProcessedSize := by
  simp only [markProcessedIds]
  split_ifs <;> simp_all [List.length_drop, List.length_append] <;> omega

theorem foldl_markProcessedIds_length (ids : List String) (s : List String)
    (h : s.length ≤ maxProcessedSize) :
    (ids.foldl (fun acc messageId => markProcessedIds messageId acc) s).length
      ≤ maxProcessedSize := by
  induction ids generalizing s with
  | nil => exact h
  | cons messageId rest ih => exact ih _ (markProcessedIds_length_le messageId s)

theorem drop_append_single {α : Type} (n : Nat) (l : List α) (a : α) (h : n ≤ l.length) :
    (l ++ [a]).drop n = l.drop n ++ [a] := by
  induction l generalizing n with
  | nil =>
    simp only [List.length_nil, Nat.le_zero] at h
    subst h
    simp
  | cons x xs ih =>
    cases n with
    | zero => simp
    | succ n2 =>
      simp only [List.cons_append, List.drop_succ_cons]
      exact ih n2 (by simpa using h)

/-- Generalization of `markProcessedIds` over the size bound, used so that
the eviction proofs never force the kernel to reduce subtraction by the
numeral 10000. -/
def boundedEvict (bound : Nat) (messageId : String) (s : List String) : List String :=
  let s1 := if messageId ∈ s then s else s ++ [messageId]
  if bound < s1.length then s1.drop (s1.length - bound) else s1

theorem markProcessedIds_eq_boundedEvict (messageId : String) (s : List String) :
    markProcessedIds messageId s = boundedEvict maxProcessedSize messageId s := rfl

theorem foldl_boundedEvict_eq_drop (bound : Nat) (hb : 0 < bound) (ids : List String)
    (h : ids.Nodup) :
    ids.foldl (fun acc messageId => boundedEvict bound messageId acc) [] =
      ids.drop (ids.length - bound) := by
  induction ids using List.reverseRecOn with
  | nil => simp
  | append_singleton ids messageId ih =>
    rw [List.nodup_append] at h
    obtain ⟨h1, _, hdisj⟩ := h
    have hid : messageId ∉ ids := fun hmem => hdisj hmem (List.mem_singleton_self messageId)
    rw [List.foldl_append, ih h1]
    have hdropid : messageId ∉ ids.drop (ids.length - bound) :=
      fun hmem => hid (List.drop_subset _ _ hmem)
    rcases Nat.lt_or_ge ids.length bound with hk | hk
    · have e1 : ids.length - bound = 0 := by omega
      rw [e1, List.drop_zero] at hdropid ⊢
      simp only [List.foldl_cons, List.foldl_nil]
      have hlen : ¬bound < (ids ++ [messageId]).length := by
        simp only [List.length_append, List.length_singleton]
        omega
      have e2 : (ids ++ [messageId]).length - bound = 0 := by
        simp only [List.length_append, List.length_singleton]
        omega
      simp [boundedEvict, hid, hlen, e2]
      intro _
      rw [show ids.length + 1 - bound = 0 from by omega, List.drop_zero]
    · have e1 : (ids.drop (ids.length - bound)).length = bound := by
        rw [List.length_drop]
        omega
      simp only [List.foldl_cons, List.foldl_nil]
      simp only [boundedEvict, hdropid, if_false, ite_false]
      have hlen1 : (ids.drop (ids.length - bound) ++ [messageId]).length = bound + 1 := by
        simp [List.length_append, e1]
      have hc : bound < (ids.drop (ids.length - bound) ++ [messageId]).length := by
        rw [hlen1]
        omega
      rw [if_pos hc, hlen1,
        show bound + 1 - bound = 1 from by omega,
        drop_append_single 1 _ messageId (by rw [e1]; omega),
        List.drop_drop,
        drop_append_single _ ids messageId
          (by simp only [List.length_append, List.length_singleton]; omega),
        List.length_append, List.length_singleton,
        show ids.length - bound + 1 = ids.length + 1 - bound from by omega]

theorem foldl_markProcessedIds_eq_drop (ids : List String) (h : ids.Nodup) :
    ids.foldl (fun acc messageId => markProcessedIds messageId acc) [] =
      ids.drop (ids.length - maxProcessedSize) := by
  have e : (fun acc messageId => markProcessedIds messageId acc)
      = fun acc messageId => boundedEvict maxProcessedSize messageId acc := rfl
  rw [e]
  exact foldl_boundedEvict_eq_drop maxProcessedSize (by decide) ids h

theorem foldl_markProcessed_processedMessages (ids : List String) (m : MessageStore) :
    (ids.foldl markProcessed m).processedMessages =
      ids.foldl (fun acc messageId => markProcessedIds messageId acc) m.processedMessages := by
  induction ids generalizing m with
  | nil => rfl
  | cons messageId rest ih => exact ih (markProcessed m messageId)

theorem contains_eq_false_of_not_mem (l : List String) (a : String) (h : a ∉ l) :
    l.contains a = false := by
  simp [List.contains, List.elem_eq_mem, h]

/-- Claim C2: after any sequence of `markProcessed` calls starting from the
fresh store, the processed-id set never holds more than `maxProcessedSize`
ids once a call returns; and inserting `maxProcessedSize + 1000` distinct
ids leaves the set size at most `maxProcessedSize` with the 1000
earliest-inserted ids no longer reported as processed by `isProcessed`
(insertion-order eviction). -/
theorem c2_markProcessed_bounded_eviction :
    (∀ ids : List String,
      ((ids.foldl markProcessed initialStore).processedMessages).length ≤ maxProcessedSize)
    ∧ ∀ ids : List String, ids.Nodup → ids.length = maxProcessedSize + 1000 →
        ((ids.foldl markProcessed initialStore).processedMessages).length ≤ maxProcessedSize
        ∧ ∀ id0 ∈ ids.take 1000,
            isProcessed (ids.foldl markProcessed initialStore) id0 = false := by
  constructor
  · intro ids
    rw [foldl_markProcessed_processedMessages]
    exact foldl_markProcessedIds_length ids [] (Nat.zero_le _)
  · intro ids hnd hlen
    have hproc : (ids.foldl markProcessed initialStore).processedMessages = ids.drop 1000 := by
      rw [foldl_markProcessed_processedMessages]
      have hinit : initialStore.processedMessages = [] := rfl
      rw [hinit, foldl_markProcessedIds_eq_drop ids hnd, hlen]
      congr 1
    refine ⟨?_, ?_⟩
    · rw [hproc, List.length_drop, hlen]
      omega
    · intro id0 hid0
      have hnotin : id0 ∉ ids.drop 1000 := by
        have hnd2 : (ids.take 1000 ++ ids.drop 1000).Nodup := by
          rw [List.take_append_drop]
          exact hnd
        rw [List.nodup_append] at hnd2
        exact fun hmem => hnd2.2.2 hid0 hmem
      show (ids.foldl markProcessed initialStore).processedMessages.contains id0 = false
      rw [hproc]
      exact contains_eq_false_of_not_mem _ _ hnotin

/-- Concrete family of `maxProcessedSize + 1000` pairwise-distinct ids. -/
def c2WitnessIds : List String :=
  (List.range (maxProcessedSize + 1000)).map fun n => String.mk (List.replicate n 'a')

theorem c2WitnessIds_nodup : c2WitnessIds.Nodup := by
  refine List.Nodup.map ?_ (List.nodup_range _)
  intro a b hab
  have h2 : List.replicate a 'a' = List.replicate b 'a' := congrArg String.data hab
  have h3 := congrArg List.length h2
  simpa [List.length_replicate] using h3

theorem c2WitnessIds_length : c2WitnessIds.length = maxProcessedSize + 1000 := by
  simp [c2WitnessIds]

/-- Witness for claim C2 at the concrete id family `c2WitnessIds`. -/
theorem c2_markProcessed_bounded_eviction_witness :
    c2WitnessIds.Nodup ∧ c2WitnessIds.length = maxProcessedSize + 1000 ∧
      (((c2WitnessIds.foldl markProcessed initialStore).processedMessages).length
          ≤ maxProcessedSize
        ∧ ∀ id0 ∈ c2WitnessIds.take 1000,
            isProcessed (c2WitnessIds.foldl markProcessed initialStore) id0 = false) :=
  ⟨c2WitnessIds_nodup, c2WitnessIds_length,
    c2_markProcessed_bounded_eviction.2 c2WitnessIds c2WitnessIds_nodup c2WitnessIds_length⟩

/-! Case lemmas for `getRecentMessage`. -/

theorem getRecentMessage_of_mapGet_none (m : MessageStore) (sender : String) (now : Int)
    (he : mapGet sender m.recentMessages = none) :
    getRecentMessage m sender now = (none, m) := by
  unfold getRecentMessage
  rw [he]

theorem getRecentMessage_of_mapGet_some_within (m : MessageStore) (sender : String)
    (now : Int) (e : MessageEntry) (he : mapGet sender m.recentMessages = some e)
    (hw : (now - e.timestamp).natAbs ≤ maxMessageAge.toNat) :
    getRecentMessage m sender now = (some ⟨e.message, e.timestamp⟩, m) := by
  unfold getRecentMessage
  rw [he]
  exact if_pos hw

theorem getRecentMessage_of_mapGet_some_stale (m : MessageStore) (sender : String)
    (now : Int) (e : MessageEntry) (he : mapGet sender m.recentMessages = some e)
    (hw : ¬(now - e.timestamp).natAbs ≤ maxMessageAge.toNat) :
    getRecentMessage m sender now
      = (none, { m with recentMessages := mapDelete sender m.recentMessages }) := by
  unfold getRecentMessage
  rw [he]
  exact if_neg hw

theorem storeMessage_of_nonempty (m : MessageStore) (sender message : String)
    (timestamp now : Int) (hs : sender ≠ "") (hm : message ≠ "") :
    storeMessage m sender message timestamp now
      = { m with recentMessages :=
            (mapSet sender ⟨jsSubstring message 1000, jsOrTimestamp timestamp now⟩
              m.recentMessages) } := by
  unfold storeMessage
  exact if_neg (fun hor => hor.elim hs hm)

theorem jsOrTimestamp_of_ne_zero (timestamp now : Int) (h : ¬timestamp = 0) :
    jsOrTimestamp timestamp now = timestamp := if_neg h

/-- Claim C1, counterexample to the signed-difference reading: the spec
formula `nowTimestampMs - entry.recordedAt <= windowMs` is satisfied at
`now = 0` against an entry recorded at `100000` (the difference `-100000`
is at most `60000`), yet `getRecentMessage` returns absent there, because
the code compares `Math.abs(now - recordedAt)` with the window. -/
theorem c1_signed_window_counterexample :
    (0 : Int) - 100000 ≤ maxMessageAge
    ∧ mapGet "s" (storeMessage initialStore "s" "hello" 100000 0).recentMessages
        = some ⟨"hello", 100000⟩
    ∧ (getRecentMessage (storeMessage initialStore "s" "hello" 100000 0) "s" 0).1 = none :=
  ⟨by decide, by decide, by decide⟩

/-- Claim C1 (amended): for a sender with a stored entry, `getRecentMessage`
returns the stored value exactly when the absolute difference
`Math.abs(nowTimestampMs - entry.recordedAt)` is at most `windowMs = 60000`
(the boundary inclusive on both sides), and returns absent otherwise; with
no stored entry it returns absent. -/
theorem c1_window_test_absolute (m : MessageStore) (sender : String) (now : Int) :
    (∀ e : MessageEntry, mapGet sender m.recentMessages = some e →
        ((getRecentMessage m sender now).1 = some ⟨e.message, e.timestamp⟩
          ↔ (now - e.timestamp).natAbs ≤ maxMessageAge.toNat))
    ∧ (mapGet sender m.recentMessages = none → (getRecentMessage m sender now).1 = none) := by
  constructor
  · intro e he
    constructor
    · intro hret
      by_contra hw
      rw [getRecentMessage_of_mapGet_some_stale m sender now e he hw] at hret
      exact Option.noConfusion hret
    · intro hw
      rw [getRecentMessage_of_mapGet_some_within m sender now e he hw]
  · intro he
    rw [getRecentMessage_of_mapGet_none m sender now he]

/-- Witness for claim C1 at the inclusive boundary: an entry recorded at
`1000` is still returned at `now = 61000` (difference exactly `60000`). -/
theorem c1_window_test_absolute_witness :
    mapGet "s" (storeMessage initialStore "s" "hello" 1000 0).recentMessages
        = some ⟨"hello", 1000⟩
    ∧ ((61000 : Int) - 1000).natAbs ≤ maxMessageAge.toNat
    ∧ (getRecentMessage (storeMessage initialStore "s" "hello" 1000 0) "s" 61000).1
        = some ⟨"hello", 1000⟩ :=
  ⟨by decide, by decide,
    ((c1_window_test_absolute (storeMessage initialStore "s" "hello" 1000 0) "s" 61000).1
      ⟨"hello", 1000⟩ (by decide)).2 (by decide)⟩

/-- Claim C6: `getRecentMessage` mutates the store exactly when the queried
sender has a stored entry outside the window: in that case it deletes that
sender's entry and no other, returning absent; when the entry is within the
window, or no entry exists, the whole store is unchanged. -/
theorem c6_lookup_frame (m : MessageStore) (sender : String) (now : Int)
    (hk : keysNodup m.recentMessages) :
    (mapGet sender m.recentMessages = none → (getRecentMessage m sender now).2 = m)
    ∧ ∀ e : MessageEntry, mapGet sender m.recentMessages = some e →
        ((now - e.timestamp).natAbs ≤ maxMessageAge.toNat →
            (getRecentMessage m sender now).2 = m)
        ∧ (¬(now - e.timestamp).natAbs ≤ maxMessageAge.toNat →
            (getRecentMessage m sender now).1 = none
            ∧ (getRecentMessage m sender now).2.recentMessages
                = mapDelete sender m.recentMessages
            ∧ mapGet sender (getRecentMessage m sender now).2.recentMessages = none
            ∧ (∀ k : String, k ≠ sender →
                mapGet k (getRecentMessage m sender now).2.recentMessages
                  = mapGet k m.recentMessages)
            ∧ (getRecentMessage m sender now).2.recentImages = m.recentImages
            ∧ (getRecentMessage m sender now).2.processedMessages
                = m.processedMessages) := by
  refine ⟨fun he => ?_, fun e he => ⟨fun hw => ?_, fun hw => ?_⟩⟩
  · rw [getRecentMessage_of_mapGet_none m sender now he]
  · rw [getRecentMessage_of_mapGet_some_within m sender now e he hw]
  · rw [getRecentMessage_of_mapGet_some_stale m sender now e he hw]
    exact ⟨rfl, rfl, mapGet_mapDelete_self sender m.recentMessages hk,
      fun k hkne => mapGet_mapDelete_ne sender k m.recentMessages hkne, rfl, rfl⟩

/-- Witness for claim C6: a sender with an entry recorded at `1000` queried
at `70000` (stale) loses exactly its own entry, while another sender's
entry survives. -/
theorem c6_lookup_frame_witness :
    keysNodup (storeMessage (storeMessage initialStore "t" "keep" 2000 0)
        "s" "old" 1000 0).recentMessages
    ∧ mapGet "s" (storeMessage (storeMessage initialStore "t" "keep" 2000 0)
        "s" "old" 1000 0).recentMessages = some ⟨"old", 1000⟩
    ∧ ¬((70000 : Int) - 1000).natAbs ≤ maxMessageAge.toNat
    ∧ ((getRecentMessage (storeMessage (storeMessage initialStore "t" "keep" 2000 0)
          "s" "old" 1000 0) "s" 70000).1 = none
        ∧ (getRecentMessage (storeMessage (storeMessage initialStore "t" "keep" 2000 0)
            "s" "old" 1000 0) "s" 70000).2.recentMessages
          = mapDelete "s" (storeMessage (storeMessage initialStore "t" "keep" 2000 0)
              "s" "old" 1000 0).recentMessages
        ∧ mapGet "s" ((getRecentMessage (storeMessage (storeMessage initialStore
            "t" "keep" 2000 0) "s" "old" 1000 0) "s" 70000).2).recentMessages = none
        ∧ (∀ k : String, k ≠ "s" →
            mapGet k ((getRecentMessage (storeMessage (storeMessage initialStore
                "t" "keep" 2000 0) "s" "old" 1000 0) "s" 70000).2).recentMessages
              = mapGet k (storeMessage (storeMessage initialStore "t" "keep" 2000 0)
                  "s" "old" 1000 0).recentMessages)
        ∧ ((getRecentMessage (storeMessage (storeMessage initialStore "t" "keep" 2000 0)
            "s" "old" 1000 0) "s" 70000).2).recentImages
          = (storeMessage (storeMessage initialStore "t" "keep" 2000 0)
              "s" "old" 1000 0).recentImages
        ∧ ((getRecentMessage (storeMessage (storeMessage initialStore "t" "keep" 2000 0)
            "s" "old" 1000 0) "s" 70000).2).processedMessages
          = (storeMessage (storeMessage initialStore "t" "keep" 2000 0)
              "s" "old" 1000 0).processedMessages) :=
  ⟨by decide, by decide, by decide,
    ((c6_lookup_frame (storeMessage (storeMessage initialStore "t" "keep" 2000 0)
        "s" "old" 1000 0) "s" 70000 (by decide)).2 ⟨"old", 1000⟩ (by decide)).2 (by decide)⟩

/-- Claim C10: calling `storeMessage` with an empty (falsy) sender or
message is a silent no-op leaving the store unchanged; in particular a
previously stored text for any sender is not overwritten and remains
retrievable by a later within-window lookup. -/
theorem c10_falsy_storeMessage_noop (m : MessageStore) (sender message : String)
    (timestamp now : Int) (h : sender = "" ∨ message = "") :
    storeMessage m sender message timestamp now = m
    ∧ ∀ (s0 : String) (lookupT : Int) (e : MessageEntry),
        mapGet s0 m.recentMessages = some e →
        (lookupT - e.timestamp).natAbs ≤ maxMessageAge.toNat →
        (getRecentMessage (storeMessage m sender message timestamp now) s0 lookupT).1
          = some ⟨e.message, e.timestamp⟩ := by
  have hnoop : storeMessage m sender message timestamp now = m := by
    unfold storeMessage
    exact if_pos h
  refine ⟨hnoop, fun s0 lookupT e he hw => ?_⟩
  rw [hnoop, getRecentMessage_of_mapGet_some_within m s0 lookupT e he hw]

/-- Witness for claim C10: an empty sender write leaves a previously stored
text for sender `t` in place and retrievable. -/
theorem c10_falsy_storeMessage_noop_witness :
    (("" : String) = "" ∨ ("x" : String) = "")
    ∧ storeMessage (storeMessage initialStore "t" "old" 1000 0) "" "x" 2000 5
        = storeMessage initialStore "t" "old" 1000 0
    ∧ mapGet "t" (storeMessage initialStore "t" "old" 1000 0).recentMessages
        = some ⟨"old", 1000⟩
    ∧ (getRecentMessage (storeMessage (storeMessage initialStore "t" "old" 1000 0)
        "" "x" 2000 5) "t" 1500).1 = some ⟨"old", 1000⟩ :=
  ⟨Or.inl rfl,
    (c10_falsy_storeMessage_noop (storeMessage initialStore "t" "old" 1000 0)
      "" "x" 2000 5 (Or.inl rfl)).1,
    by decide,
    (c10_falsy_storeMessage_noop (storeMessage initialStore "t" "old" 1000 0)
      "" "x" 2000 5 (Or.inl rfl)).2 "t" 1500 ⟨"old", 1000⟩ (by decide) (by decide)⟩

/-! Key-uniqueness is preserved by `Map.set`. -/

theorem keys_mapReplace {α : Type} (k : String) (v : α) (l : List (String × α)) :
    (mapReplace k v l).map Prod.fst = l.map Prod.fst := by
  induction l with
  | nil => rfl
  | cons p rest ih =>
    by_cases hpk : p.1 = k
    · simp [mapReplace, hpk]
    · simp [mapReplace, hpk, ih]

theorem keysNodup_mapSet {α : Type} (k : String) (v : α) (l : List (String × α))
    (h : keysNodup l) : keysNodup (mapSet k v l) := by
  unfold mapSet
  by_cases hh : mapHas k l
  · simp only [hh, if_pos]
    unfold keysNodup
    rw [keys_mapReplace]
    exact h
  · simp only [Bool.not_eq_true] at hh
    simp only [hh, Bool.false_eq_true, if_false]
    have hk : k ∉ l.map Prod.fst := fun hmem =>
      by rw [(mapHas_eq_true_iff k l).mpr hmem] at hh; exact Bool.true_eq_false.mp hh
    unfold keysNodup
    rw [List.map_append]
    rw [List.nodup_append]
    exact ⟨h, List.nodup_singleton k,
      fun a ha hb => hk (by rwa [List.mem_singleton.mp hb] at ha)⟩

/-- Claim C8: storing a second text for the same sender fully overwrites the
first (last-write-wins): after storing "A" at `1000` then "B" at `2000`, a
lookup at `2500` returns "B"; in general the sender's entry after two
stores is the second value; and `storeMessage` keeps at most one entry per
sender (key-uniqueness of the map is preserved). -/
theorem c8_last_write_wins :
    (∀ (m : MessageStore) (d1 d2 : Int),
        (getRecentMessage (storeMessage (storeMessage m "s" "A" 1000 d1) "s" "B" 2000 d2)
            "s" 2500).1 = some ⟨"B", 2000⟩)
    ∧ (∀ (m : MessageStore) (sender msg1 msg2 : String) (t1 t2 d1 d2 : Int),
        sender ≠ "" → msg2 ≠ "" →
          mapGet sender
              (storeMessage (storeMessage m sender msg1 t1 d1)
                sender msg2 t2 d2).recentMessages
            = some ⟨jsSubstring msg2 1000, jsOrTimestamp t2 d2⟩)
    ∧ ∀ (m : MessageStore) (sender message : String) (t d : Int),
        keysNodup m.recentMessages →
          keysNodup (storeMessage m sender message t d).recentMessages := by
  have hsecond : ∀ (m : MessageStore) (sender msg1 msg2 : String) (t1 t2 d1 d2 : Int),
      sender ≠ "" → msg2 ≠ "" →
        mapGet sender
            (storeMessage (storeMessage m sender msg1 t1 d1)
              sender msg2 t2 d2).recentMessages
          = some ⟨jsSubstring msg2 1000, jsOrTimestamp t2 d2⟩ := by
    intro m sender msg1 msg2 t1 t2 d1 d2 hs hm2
    rw [storeMessage_of_nonempty _ sender msg2 t2 d2 hs hm2]
    exact mapGet_mapSet_self sender _ _
  refine ⟨?_, hsecond, ?_⟩
  · intro m d1 d2
    have hget := hsecond m "s" "A" "B" 1000 2000 d1 d2 (by decide) (by decide)
    rw [jsOrTimestamp_of_ne_zero 2000 d2 (by decide)] at hget
    rw [getRecentMessage_of_mapGet_some_within _ "s" 2500 _ hget (by decide)]
    rw [show jsSubstring "B" 1000 = "B" from by decide]
  · intro m sender message t d h
    unfold storeMessage
    split_ifs with hcond
    · exact h
    · exact keysNodup_mapSet sender _ m.recentMessages h

/-- Witness for claim C8 at the spec's concrete scenario from the empty
store. -/
theorem c8_last_write_wins_witness :
    ("s" : String) ≠ "" ∧ ("B" : String) ≠ ""
    ∧ mapGet "s" (storeMessage (storeMessage initialStore "s" "A" 1000 0)
        "s" "B" 2000 0).recentMessages
      = some ⟨jsSubstring "B" 1000, jsOrTimestamp 2000 0⟩
    ∧ (getRecentMessage (storeMessage (storeMessage initialStore "s" "A" 1000 0)
        "s" "B" 2000 0) "s" 2500).1 = some ⟨"B", 2000⟩
    ∧ (keysNodup (initialStore.recentMessages)
        ∧ keysNodup (storeMessage initialStore "s" "A" 1000 0).recentMessages) :=
  ⟨by decide, by decide,
    c8_last_write_wins.2.1 initialStore "s" "A" "B" 1000 2000 0 0 (by decide) (by decide),
    c8_last_write_wins.1 initialStore 0 0,
    by decide,
    c8_last_write_wins.2.2 initialStore "s" "A" 1000 0 (by decide)⟩

/-! Stored-text length invariant: every embedded operation keeps each
stored message at most 1000 characters, because `storeMessage` truncates
with `substring(0, 1000)`. -/

theorem jsSubstring_length_le (s : String) (n : Nat) : (jsSubstring s n).length ≤ n := by
  show (s.data.take n).length ≤ n
  rw [List.length_take]
  exact min_le_left n s.data.length

theorem jsSubstring_length_of_lt (s : String) (n : Nat) (h : n < s.length) :
    (jsSubstring s n).length = n := by
  show (s.data.take n).length = n
  rw [List.length_take]
  exact min_eq_left (Nat.le_of_lt h)

def TextLenInv (m : MessageStore) : Prop :=
  ∀ p ∈ m.recentMessages, p.2.message.length ≤ 1000

theorem textLenInv_initialStore : TextLenInv initialStore := fun p hp =>
  absurd hp (List.not_mem_nil p)

theorem getRecentMessage_snd_mem (m : MessageStore) (sender : String) (now : Int)
    (p : String × MessageEntry) (hp : p ∈ (getRecentMessage m sender now).2.recentMessages) :
    p ∈ m.recentMessages := by
  cases he : mapGet sender m.recentMessages with
  | none =>
    rw [getRecentMessage_of_mapGet_none m sender now he] at hp
    exact hp
  | some e =>
    by_cases hw : (now - e.timestamp).natAbs ≤ maxMessageAge.toNat
    · rw [getRecentMessage_of_mapGet_some_within m sender now e he hw] at hp
      exact hp
    · rw [getRecentMessage_of_mapGet_some_stale m sender now e he hw] at hp
      exact mem_mapDelete sender m.recentMessages p hp

theorem getRecentImage_of_mapGet_none (m : MessageStore) (sender : String) (now : Int)
    (he : mapGet sender m.recentImages = none) :
    getRecentImage m sender now = (none, m) := by
  unfold getRecentImage
  rw [he]

theorem getRecentImage_of_mapGet_some_within (m : MessageStore) (sender : String)
    (now : Int) (e : ImageEntry) (he : mapGet sender m.recentImages = some e)
    (hw : (now - e.timestamp).natAbs ≤ maxMessageAge.toNat) :
    getRecentImage m sender now = (some ⟨e.url, e.caption, e.timestamp⟩, m) := by
  unfold getRecentImage
  rw [he]
  exact if_pos hw

theorem getRecentImage_of_mapGet_some_stale (m : MessageStore) (sender : String)
    (now : Int) (e : ImageEntry) (he : mapGet sender m.recentImages = some e)
    (hw : ¬(now - e.timestamp).natAbs ≤ maxMessageAge.toNat) :
    getRecentImage m sender now
      = (none, { m with recentImages := mapDelete sender m.recentImages }) := by
  unfold getRecentImage
  rw [he]
  exact if_neg hw

theorem getRecentImage_snd_recentMessages (m : MessageStore) (sender : String) (now : Int) :
    (getRecentImage m sender now).2.recentMessages = m.recentMessages := by
  cases he : mapGet sender m.recentImages with
  | none => rw [getRecentImage_of_mapGet_none m sender now he]
  | some e =>
    by_cases hw : (now - e.timestamp).natAbs ≤ maxMessageAge.toNat
    · rw [getRecentImage_of_mapGet_some_within m sender now e he hw]
    · rw [getRecentImage_of_mapGet_some_stale m sender now e he hw]

theorem textLenInv_storeMessage (m : MessageStore) (sender message : String)
    (timestamp now : Int) (h : TextLenInv m) :
    TextLenInv (storeMessage m sender message timestamp now) := by
  unfold storeMessage
  split_ifs with hcond
  · exact h
  · intro p hp
    rcases mem_mapSet sender _ m.recentMessages p hp with hpv | hpm
    · rw [hpv]
      exact jsSubstring_length_le message 1000
    · exact h p hpm

theorem textLenInv_applyOp (m : MessageStore) (op : StoreOp) (h : TextLenInv m) :
    TextLenInv (applyOp m op) := by
  cases op with
  | opStoreMessage sender message timestamp now =>
    exact textLenInv_storeMessage m sender message timestamp now h
  | opStoreImage sender imageUrl caption timestamp now =>
    show TextLenInv (storeImage m sender imageUrl caption timestamp now)
    intro p hp
    refine h p ?_
    unfold storeImage at hp
    split_ifs at hp <;> exact hp
  | opGetRecentMessage sender currentTimestamp =>
    intro p hp
    exact h p (getRecentMessage_snd_mem m sender currentTimestamp p hp)
  | opGetRecentImage sender currentTimestamp =>
    show TextLenInv (getRecentImage m sender currentTimestamp).2
    intro p hp
    rw [getRecentImage_snd_recentMessages m sender currentTimestamp] at hp
    exact h p hp
  | opMarkProcessed messageId => exact fun p hp => h p hp
  | opCleanup now =>
    intro p hp
    exact h p (mem_foldl_mapDelete _ m.recentMessages p hp)
  | opClear => exact fun p hp => absurd hp (List.not_mem_nil p)

theorem textLenInv_runOps (ops : List StoreOp) : TextLenInv (runOps ops) := by
  have hgen : ∀ (l : List StoreOp) (m : MessageStore), TextLenInv m →
      TextLenInv (l.foldl applyOp m) := by
    intro l
    induction l with
    | nil => exact fun m h => h
    | cons op rest ih => exact fun m h => ih (applyOp m op) (textLenInv_applyOp m op h)
  exact hgen ops initialStore textLenInv_initialStore

/-- Claim C9: `storeMessage` stores only the first 1000 characters: a
subsequent lookup for that sender that finds the entry returns exactly the
1000-character prefix of a longer message (never the full text); and no
value ever returned by `getRecentMessage` on a store reachable through the
public interface exceeds 1000 characters. -/
theorem c9_truncation_to_1000 :
    (∀ (m : MessageStore) (sender message : String) (timestamp now lookupT : Int),
        sender ≠ "" → message ≠ "" → 1000 < message.length →
        ∀ v : RecentText,
          (getRecentMessage (storeMessage m sender message timestamp now)
              sender lookupT).1 = some v →
            v.text = jsSubstring message 1000 ∧ v.text ≠ message ∧ v.text.length = 1000)
    ∧ ∀ (ops : List StoreOp) (sender : String) (lookupT : Int) (v : RecentText),
        (getRecentMessage (runOps ops) sender lookupT).1 = some v →
          v.text.length ≤ 1000 := by
  constructor
  · intro m sender message timestamp now lookupT hs hm hlong v hv
    have hget : mapGet sender
        (storeMessage m sender message timestamp now).recentMessages
        = some ⟨jsSubstring message 1000, jsOrTimestamp timestamp now⟩ := by
      rw [storeMessage_of_nonempty m sender message timestamp now hs hm]
      exact mapGet_mapSet_self sender _ _
    by_cases hw : (lookupT - jsOrTimestamp timestamp now).natAbs ≤ maxMessageAge.toNat
    · rw [getRecentMessage_of_mapGet_some_within _ sender lookupT _ hget hw] at hv
      cases hv
      have hlen : (jsSubstring message 1000).length = 1000 :=
        jsSubstring_length_of_lt message 1000 hlong
      refine ⟨rfl, fun heq => ?_, hlen⟩
      dsimp only at heq
      rw [heq] at hlen
      omega
    · rw [getRecentMessage_of_mapGet_some_stale _ sender lookupT _ hget hw] at hv
      exact Option.noConfusion hv
  · intro ops sender lookupT v hv
    have hinv := textLenInv_runOps ops
    cases he : mapGet sender (runOps ops).recentMessages with
    | none =>
      rw [getRecentMessage_of_mapGet_none _ sender lookupT he] at hv
      exact Option.noConfusion hv
    | some e =>
      by_cases hw : (lookupT - e.timestamp).natAbs ≤ maxMessageAge.toNat
      · rw [getRecentMessage_of_mapGet_some_within _ sender lookupT e he hw] at hv
        cases hv
        exact hinv (sender, e) (mapGet_mem sender e _ he)
      · rw [getRecentMessage_of_mapGet_some_stale _ sender lookupT e he hw] at hv
        exact Option.noConfusion hv

/-- Witness for claim C9: a 1001-character message is stored truncated to
its 1000-character prefix and returned as such, and a concrete call
sequence never yields a text longer than 1000 characters. -/
theorem c9_truncation_to_1000_witness :
    ("s" : String) ≠ ""
    ∧ String.mk (List.replicate 1001 'a') ≠ ""
    ∧ 1000 < (String.mk (List.replicate 1001 'a')).length
    ∧ (getRecentMessage (storeMessage initialStore "s"
          (String.mk (List.replicate 1001 'a')) 1000 0) "s" 1000).1
        = some ⟨jsSubstring (String.mk (List.replicate 1001 'a')) 1000, 1000⟩
    ∧ (jsSubstring (String.mk (List.replicate 1001 'a')) 1000
          = jsSubstring (String.mk (List.replicate 1001 'a')) 1000
        ∧ jsSubstring (String.mk (List.replicate 1001 'a')) 1000
          ≠ String.mk (List.replicate 1001 'a')
        ∧ (jsSubstring (String.mk (List.replicate 1001 'a')) 1000).length = 1000)
    ∧ ((getRecentMessage (runOps [StoreOp.opStoreMessage "s"
          (String.mk (List.replicate 1001 'a')) 1000 0]) "s" 1000).1
        = some ⟨jsSubstring (String.mk (List.replicate 1001 'a')) 1000, 1000⟩
      ∧ (jsSubstring (String.mk (List.replicate 1001 'a')) 1000).length ≤ 1000) := by
  have hne : String.mk (List.replicate 1001 'a') ≠ "" := by
    intro he
    have h1 : (List.replicate 1001 'a').length = ("" : String).data.length :=
      congrArg List.length (congrArg String.data he)
    rw [List.length_replicate] at h1
    exact absurd h1 (by decide)
  have hlong : 1000 < (String.mk (List.replicate 1001 'a')).length := by
    show 1000 < (List.replicate 1001 'a').length
    rw [List.length_replicate]
    omega
  have hret : (getRecentMessage (storeMessage initialStore "s"
      (String.mk (List.replicate 1001 'a')) 1000 0) "s" 1000).1
      = some ⟨jsSubstring (String.mk (List.replicate 1001 'a')) 1000, 1000⟩ := by
    have hget : mapGet "s" (storeMessage initialStore "s"
        (String.mk (List.replicate 1001 'a')) 1000 0).recentMessages
        = some ⟨jsSubstring (String.mk (List.replicate 1001 'a')) 1000, 1000⟩ := by
      rw [storeMessage_of_nonempty initialStore "s" _ 1000 0 (by decide) hne,
        jsOrTimestamp_of_ne_zero 1000 0 (by decide)]
      dsimp only
      exact mapGet_mapSet_self "s" _ _
    rw [getRecentMessage_of_mapGet_some_within _ "s" 1000 _ hget (by decide)]
  refine ⟨by decide, hne, hlong, hret,
    c9_truncation_to_1000.1 initialStore "s" _ 1000 0 1000 (by decide) hne hlong
      ⟨jsSubstring (String.mk (List.replicate 1001 'a')) 1000, 1000⟩ hret,
    ?_, c9_truncation_to_1000.2 [StoreOp.opStoreMessage "s"
      (String.mk (List.replicate 1001 'a')) 1000 0] "s" 1000
      ⟨jsSubstring (String.mk (List.replicate 1001 'a')) 1000, 1000⟩ ?hrun⟩
  case hrun => exact hret
  exact hret

/-! Lemmas for the webhook-handler claims. -/

theorem not_eq_true_of_eq_false {b : Bool} (h : b = false) : ¬b = true := by
  simp [h]

theorem getRecentMessage_markProcessed_fst (m : MessageStore)
    (messageId sender : String) (now : Int) :
    (getRecentMessage (markProcessed m messageId) sender now).1
      = (getRecentMessage m sender now).1 := by
  cases he : mapGet sender m.recentMessages with
  | none =>
    rw [getRecentMessage_of_mapGet_none (markProcessed m messageId) sender now he,
      getRecentMessage_of_mapGet_none m sender now he]
  | some e =>
    by_cases hw : (now - e.timestamp).natAbs ≤ maxMessageAge.toNat
    · rw [getRecentMessage_of_mapGet_some_within (markProcessed m messageId)
          sender now e he hw,
        getRecentMessage_of_mapGet_some_within m sender now e he hw]
    · rw [getRecentMessage_of_mapGet_some_stale (markProcessed m messageId)
          sender now e he hw,
        getRecentMessage_of_mapGet_some_stale m sender now e he hw]

theorem getRecentMessage_snd_recentImages (m : MessageStore) (sender : String) (now : Int) :
    (getRecentMessage m sender now).2.recentImages = m.recentImages := by
  cases he : mapGet sender m.recentMessages with
  | none => rw [getRecentMessage_of_mapGet_none m sender now he]
  | some e =>
    by_cases hw : (now - e.timestamp).natAbs ≤ maxMessageAge.toNat
    · rw [getRecentMessage_of_mapGet_some_within m sender now e he hw]
    · rw [getRecentMessage_of_mapGet_some_stale m sender now e he hw]

/-- Claim C7: for an inbound event whose message id is already in the
processed set, the handler short-circuits: no external call is made (no
classifier invocation, no spreadsheet append), `getRecentMessage` is not
consulted, and the whole store — pairing maps included — is left unchanged. -/
theorem c7_duplicate_short_circuit (sanitize : String → String) (wallClock : Int)
    (ev : WebhookEvent) (m : MessageStore) (h : isProcessed m ev.messageId = true) :
    (handleWebhookPost sanitize wallClock ev m).store = m
    ∧ (handleWebhookPost sanitize wallClock ev m).calls = []
    ∧ (handleWebhookPost sanitize wallClock ev m).calledGetRecent = false
    ∧ (handleWebhookPost sanitize wallClock ev m).response = "Duplicate" := by
  have hh : handleWebhookPost sanitize wallClock ev m
      = { store := m, response := "Duplicate", messageText := ResolvedText.str "",
          imageUrl := none, confidence := none, calledGetRecent := false, calls := [] } := by
    unfold handleWebhookPost
    rw [if_pos h]
  rw [hh]
  exact ⟨rfl, rfl, rfl, rfl⟩

/-- Witness for claim C7: a text event whose id was already marked
processed leaves the store untouched and issues no external calls. -/
theorem c7_duplicate_short_circuit_witness :
    isProcessed (markProcessed initialStore "id1")
        ({ messageType := "text", sender := "s", timestampMs := 1000, text := "hi",
           caption := "", url := "", messageId := "id1" } : WebhookEvent).messageId = true
    ∧ ((handleWebhookPost (fun s => s) 0
          { messageType := "text", sender := "s", timestampMs := 1000, text := "hi",
            caption := "", url := "", messageId := "id1" }
          (markProcessed initialStore "id1")).store = markProcessed initialStore "id1"
      ∧ (handleWebhookPost (fun s => s) 0
          { messageType := "text", sender := "s", timestampMs := 1000, text := "hi",
            caption := "", url := "", messageId := "id1" }
          (markProcessed initialStore "id1")).calls = []
      ∧ (handleWebhookPost (fun s => s) 0
          { messageType := "text", sender := "s", timestampMs := 1000, text := "hi",
            caption := "", url := "", messageId := "id1" }
          (markProcessed initialStore "id1")).calledGetRecent = false
      ∧ (handleWebhookPost (fun s => s) 0
          { messageType := "text", sender := "s", timestampMs := 1000, text := "hi",
            caption := "", url := "", messageId := "id1" }
          (markProcessed initialStore "id1")).response = "Duplicate") :=
  ⟨by decide,
    c7_duplicate_short_circuit (fun s => s) 0
      { messageType := "text", sender := "s", timestampMs := 1000, text := "hi",
        caption := "", url := "", messageId := "id1" }
      (markProcessed initialStore "id1") (by decide)⟩

/-- Claim C4: for a non-duplicate image event whose caption is non-empty,
the handler never calls `getRecentMessage`, the resolved text is exactly
the caption, and both pairing maps are untouched — even when a pairable
text for the same sender is live in the store. -/
theorem c4_caption_wins (sanitize : String → String) (wallClock : Int)
    (ev : WebhookEvent) (m : MessageStore)
    (hdup : isProcessed m ev.messageId = false)
    (htype : ev.messageType = "image") (hcap : ev.caption ≠ "") :
    (handleWebhookPost sanitize wallClock ev m).calledGetRecent = false
    ∧ (handleWebhookPost sanitize wallClock ev m).messageText = ResolvedText.str ev.caption
    ∧ (handleWebhookPost sanitize wallClock ev m).store.recentMessages = m.recentMessages
    ∧ (handleWebhookPost sanitize wallClock ev m).store.recentImages = m.recentImages := by
  have hh : handleWebhookPost sanitize wallClock ev m
      = { store := markProcessed m ev.messageId, response := "success",
          messageText := ResolvedText.str ev.caption, imageUrl := some ev.url,
          confidence := some Confidence.captionOnImage, calledGetRecent := false,
          calls := [ExtCall.classify (ResolvedText.str ev.caption) (some ev.url),
            ExtCall.appendRow] } := by
    simp only [handleWebhookPost]
    rw [if_neg (not_eq_true_of_eq_false hdup), htype,
      if_neg (by decide : ¬("image" : String) = "text"),
      if_pos (rfl : ("image" : String) = "image"),
      if_pos hcap]
  rw [hh]
  exact ⟨rfl, rfl, rfl, rfl⟩

/-- Witness for claim C4: an image with caption from a sender whose
pairable text is live in the store resolves to the caption, performs no
lookup, and leaves the live text in place. -/
theorem c4_caption_wins_witness :
    isProcessed (storeMessage initialStore "s" "live" 1000 0) "m1" = false
    ∧ ({ messageType := "image", sender := "s", timestampMs := 2000, text := "",
          caption := "cap", url := "http://img", messageId := "m1" }
        : WebhookEvent).messageType = "image"
    ∧ ({ messageType := "image", sender := "s", timestampMs := 2000, text := "",
          caption := "cap", url := "http://img", messageId := "m1" }
        : WebhookEvent).caption ≠ ""
    ∧ ((handleWebhookPost (fun s => s) 0
          { messageType := "image", sender := "s", timestampMs := 2000, text := "",
            caption := "cap", url := "http://img", messageId := "m1" }
          (storeMessage initialStore "s" "live" 1000 0)).calledGetRecent = false
      ∧ (handleWebhookPost (fun s => s) 0
          { messageType := "image", sender := "s", timestampMs := 2000, text := "",
            caption := "cap", url := "http://img", messageId := "m1" }
          (storeMessage initialStore "s" "live" 1000 0)).messageText
        = ResolvedText.str "cap"
      ∧ (handleWebhookPost (fun s => s) 0
          { messageType := "image", sender := "s", timestampMs := 2000, text := "",
            caption := "cap", url := "http://img", messageId := "m1" }
          (storeMessage initialStore "s" "live" 1000 0)).store.recentMessages
        = (storeMessage initialStore "s" "live" 1000 0).recentMessages
      ∧ (handleWebhookPost (fun s => s) 0
          { messageType := "image", sender := "s", timestampMs := 2000, text := "",
            caption := "cap", url := "http://img", messageId := "m1" }
          (storeMessage initialStore "s" "live" 1000 0)).store.recentImages
        = (storeMessage initialStore "s" "live" 1000 0).recentImages) :=
  ⟨by decide, rfl, by decide,
    c4_caption_wins (fun s => s) 0
      { messageType := "image", sender := "s", timestampMs := 2000, text := "",
        caption := "cap", url := "http://img", messageId := "m1" }
      (storeMessage initialStore "s" "live" 1000 0) (by decide) rfl (by decide)⟩

/-- Claim C5: for a non-duplicate image event with no caption and no stored
text within the window for that sender, the resolved text is the fixed
fallback sentinel — a non-empty string, never the empty string — and the
branch taken is the image-only fallback. -/
theorem c5_fallback_sentinel (sanitize : String → String) (wallClock : Int)
    (ev : WebhookEvent) (m : MessageStore)
    (hdup : isProcessed m ev.messageId = false)
    (htype : ev.messageType = "image") (hcap : ev.caption = "")
    (hmiss : (getRecentMessage m ev.sender ev.timestampMs).1 = none) :
    (handleWebhookPost sanitize wallClock ev m).messageText
        = ResolvedText.str FALLBACK_SENTINEL
    ∧ FALLBACK_SENTINEL ≠ ""
    ∧ (handleWebhookPost sanitize wallClock ev m).confidence
        = some Confidence.imageOnlyFallback
    ∧ (handleWebhookPost sanitize wallClock ev m).calls
        = [ExtCall.classify (ResolvedText.str FALLBACK_SENTINEL) (some ev.url),
            ExtCall.appendRow] := by
  have hm1 : (getRecentMessage (markProcessed m ev.messageId) ev.sender ev.timestampMs).1
      = none := by
    rw [getRecentMessage_markProcessed_fst]
    exact hmiss
  simp only [handleWebhookPost]
  rw [if_neg (not_eq_true_of_eq_false hdup), htype,
    if_neg (by decide : ¬("image" : String) = "text"),
    if_pos (rfl : ("image" : String) = "image"),
    if_neg (show ¬ev.caption ≠ "" from fun hne => hne hcap)]
  cases hpair : getRecentMessage (markProcessed m ev.messageId) ev.sender ev.timestampMs with
  | mk fst m2 =>
    rw [hpair] at hm1
    dsimp only at hm1
    subst hm1
    exact ⟨rfl, by decide, rfl, rfl⟩

/-- Witness for claim C5: an image with empty caption against the empty
store resolves to the non-empty sentinel via the fallback branch. -/
theorem c5_fallback_sentinel_witness :
    isProcessed initialStore "m1" = false
    ∧ (getRecentMessage initialStore "s" 30000).1 = none
    ∧ ((handleWebhookPost (fun s => s) 0
          { messageType := "image", sender := "s", timestampMs := 30000, text := "",
            caption := "", url := "http://img", messageId := "m1" }
          initialStore).messageText = ResolvedText.str FALLBACK_SENTINEL
      ∧ FALLBACK_SENTINEL ≠ ""
      ∧ (handleWebhookPost (fun s => s) 0
          { messageType := "image", sender := "s", timestampMs := 30000, text := "",
            caption := "", url := "http://img", messageId := "m1" }
          initialStore).confidence = some Confidence.imageOnlyFallback
      ∧ (handleWebhookPost (fun s => s) 0
          { messageType := "image", sender := "s", timestampMs := 30000, text := "",
            caption := "", url := "http://img", messageId := "m1" }
          initialStore).calls
        = [ExtCall.classify (ResolvedText.str FALLBACK_SENTINEL) (some "http://img"),
            ExtCall.appendRow]) :=
  ⟨by decide, by decide,
    c5_fallback_sentinel (fun s => s) 0
      { messageType := "image", sender := "s", timestampMs := 30000, text := "",
        caption := "", url := "http://img", messageId := "m1" }
      initialStore (by decide) rfl rfl (by decide)⟩

/-- Claim C3 evaluation: the part_001 `POST /webhook` handler never calls
`storeImage` — for every inbound event, with or without a caption, the
store's `recentImages` map after the handler equals the one before, so no
Image entry for the sender is recorded for future pairing; in particular a
caption-less image event against the fresh store leaves `recentImages`
empty. -/
theorem c3_storeImage_never_called :
    (∀ (sanitize : String → String) (wallClock : Int) (ev : WebhookEvent)
        (m : MessageStore),
        (handleWebhookPost sanitize wallClock ev m).store.recentImages = m.recentImages)
    ∧ (handleWebhookPost (fun s => s) 0
        { messageType := "image", sender := "972501234567", timestampMs := 30000,
          text := "", caption := "", url := "http://example.com/1.jpg",
          messageId := "m1" }
        initialStore).store.recentImages = [] := by
  constructor
  · intro sanitize wallClock ev m
    simp only [handleWebhookPost]
    split_ifs with h1 h2 h3 h4
    · rfl
    · dsimp only
      unfold storeMessage
      split_ifs <;> rfl
    · rfl
    · have h5 := getRecentMessage_snd_recentImages (markProcessed m ev.messageId)
        ev.sender ev.timestampMs
      cases hpair : getRecentMessage (markProcessed m ev.messageId)
          ev.sender ev.timestampMs with
      | mk fst m2 =>
        rw [hpair] at h5
        dsimp only at h5
        cases fst with
        | none => exact h5
        | some r => exact h5
    · rfl
  · decide
